import Mathlib

/-!
Shallow embedding of the HousePriceEstimator repository
(`scripts/postcode_to_borough.py`, `model.py` and `app/main.py`),
with theorems settling the specification's claims about it.

Python strings are modelled as `List Char` (abbreviated `Str`); the string
methods the scripts use (`str.strip`, `str.strip('"')`, `str.upper` on the
ASCII range, `str.replace(" ", "")`) are modelled as the corresponding list
functions.  A CSV file, as seen through `csv.DictReader`, is modelled as a
header (the field names) together with rows mapping field names to cell
values; the filesystem is a partial map from paths to parsed CSV files.
-/

set_option autoImplicit false

deriving instance DecidableEq for Except

namespace HousePrice

abbrev Str := List Char

/-- The characters removed by Python's no-argument `str.strip()`:
space, tab, newline, carriage return, vertical tab, form feed. -/
def isPySpace (c : Char) : Bool :=
  c == ' ' || c == '\t' || c == '\n' || c == '\r' ||
    c == Char.ofNat 11 || c == Char.ofNat 12

/-- Python's `str.strip(chars)`: remove the characters satisfying `p`
from both ends of the string. -/
def pyStripBy (p : Char → Bool) (s : Str) : Str :=
  ((s.dropWhile p).reverse.dropWhile p).reverse

/-- Python's no-argument `str.strip()`. -/
def pyStrip (s : Str) : Str := pyStripBy isPySpace s

/-- Python's `str.strip('"')`, as used on ONSPD cells. -/
def stripQuotes (s : Str) : Str := pyStripBy (fun c => c == '"') s

/-- The lowercase-to-uppercase table realised by Python's `str.upper`
on the ASCII letters. -/
def LOWER_UPPER : List (Char × Char) :=
  [('a', 'A'), ('b', 'B'), ('c', 'C'), ('d', 'D'), ('e', 'E'), ('f', 'F'),
   ('g', 'G'), ('h', 'H'), ('i', 'I'), ('j', 'J'), ('k', 'K'), ('l', 'L'),
   ('m', 'M'), ('n', 'N'), ('o', 'O'), ('p', 'P'), ('q', 'Q'), ('r', 'R'),
   ('s', 'S'), ('t', 'T'), ('u', 'U'), ('v', 'V'), ('w', 'W'), ('x', 'X'),
   ('y', 'Y'), ('z', 'Z')]

/-- Python's `str.upper` on a single character: ASCII lowercase letters are
mapped to their uppercase form, every other character (digits, spaces,
punctuation) is unchanged. -/
def pyUpperChar (c : Char) : Char :=
  ((LOWER_UPPER.find? (fun q => q.1 == c)).map Prod.snd).getD c

/-- Python's `str.upper`. -/
def pyUpper (s : Str) : Str := s.map pyUpperChar

/-- Python's `str.replace(" ", "")`. -/
def removeSpaces (s : Str) : Str := s.filter (fun c => c != ' ')

/-- `normalize_postcode` from `scripts/postcode_to_borough.py`: strip,
uppercase and remove spaces; if fewer than five characters remain, return
the stripped uppercased input, otherwise re-insert a single space before
the last three characters. -/
def normalize_postcode (pc : Str) : Str :=
  let s := removeSpaces (pyUpper (pyStrip pc))
  if s.length < 5 then pyUpper (pyStrip pc)
  else s.take (s.length - 3) ++ ' ' :: s.drop (s.length - 3)

example : normalize_postcode "sw1a1aa".toList = "SW1A 1AA".toList := by decide
example : normalize_postcode "SW1A  1AA".toList = "SW1A 1AA".toList := by decide
example : normalize_postcode "  e1 ".toList = "E1".toList := by decide

/-! ### Facts about the character-level uppercase map -/

theorem pyUpperChar_fix (c : Char)
    (h : LOWER_UPPER.find? (fun q => q.1 == c) = none) : pyUpperChar c = c := by
  unfold pyUpperChar
  rw [h]
  rfl

theorem pyUpperChar_eq_or_mem (c : Char) :
    pyUpperChar c = c ∨ (c, pyUpperChar c) ∈ LOWER_UPPER := by
  cases h : LOWER_UPPER.find? (fun q => q.1 == c) with
  | none => exact Or.inl (pyUpperChar_fix c h)
  | some pr =>
      right
      have h1 := List.find?_some h
      have h2 : pr ∈ LOWER_UPPER := List.mem_of_find?_eq_some h
      have h3 : pr.1 = c := eq_of_beq h1
      have h4 : pyUpperChar c = pr.2 := by
        unfold pyUpperChar
        rw [h]
        rfl
      rw [h4, ← h3]
      exact h2

theorem LOWER_UPPER_snd_fixed :
    ∀ p ∈ LOWER_UPPER, LOWER_UPPER.find? (fun q => q.1 == p.2) = none := by decide

theorem LOWER_UPPER_not_space :
    ∀ p ∈ LOWER_UPPER, isPySpace p.1 = false ∧ isPySpace p.2 = false ∧
      p.1 ≠ ' ' ∧ p.2 ≠ ' ' := by decide

theorem pyUpperChar_idem (c : Char) :
    pyUpperChar (pyUpperChar c) = pyUpperChar c := by
  rcases pyUpperChar_eq_or_mem c with h | h
  · rw [h, h]
  · exact pyUpperChar_fix _ (LOWER_UPPER_snd_fixed _ h)

theorem isPySpace_pyUpperChar (c : Char) :
    isPySpace (pyUpperChar c) = isPySpace c := by
  rcases pyUpperChar_eq_or_mem c with h | h
  · rw [h]
  · obtain ⟨h1, h2, _, _⟩ := LOWER_UPPER_not_space _ h
    have h1' : isPySpace c = false := h1
    have h2' : isPySpace (pyUpperChar c) = false := h2
    rw [h1', h2']

theorem pyUpperChar_eq_space_iff (c : Char) : pyUpperChar c = ' ' ↔ c = ' ' := by
  rcases pyUpperChar_eq_or_mem c with h | h
  · rw [h]
  · obtain ⟨_, _, h3, h4⟩ := LOWER_UPPER_not_space _ h
    have h3' : c ≠ ' ' := h3
    have h4' : pyUpperChar c ≠ ' ' := h4
    exact iff_of_false h4' h3'

theorem bne_space_pyUpperChar (c : Char) : (pyUpperChar c != ' ') = (c != ' ') := by
  by_cases hc : c = ' '
  · rw [hc, (pyUpperChar_eq_space_iff ' ').mpr rfl]
  · have h : pyUpperChar c ≠ ' ' := fun hh => hc ((pyUpperChar_eq_space_iff c).mp hh)
    have h1 : (pyUpperChar c == ' ') = false := beq_eq_false_iff_ne.mpr h
    have h2 : (c == ' ') = false := beq_eq_false_iff_ne.mpr hc
    simp [bne, h1, h2]

theorem ne_space_of_not_pySpace {c : Char} (h : isPySpace c = false) :
    (c != ' ') = true := by
  by_cases hc : c = ' '
  · subst hc
    exact absurd h (by decide)
  · simp [bne_iff_ne, hc]

/-! ### Facts about stripping -/

/-- The second half of `pyStripBy`: strip matching characters from the
right end only. -/
def rstripBy (p : Char → Bool) (l : Str) : Str :=
  (l.reverse.dropWhile p).reverse

theorem pyStripBy_eq_rstrip (p : Char → Bool) (s : Str) :
    pyStripBy p s = rstripBy p (s.dropWhile p) := rfl

theorem head?_dropWhile {α : Type} {p : α → Bool} {l : List α} {c : α}
    (h : (l.dropWhile p).head? = some c) : p c = false := by
  induction l with
  | nil => simp [List.dropWhile] at h
  | cons a t ih =>
      rw [List.dropWhile_cons] at h
      by_cases hp : p a = true
      · rw [if_pos hp] at h
        exact ih h
      · rw [if_neg hp] at h
        have : a = c := by simpa using h
        subst this
        simpa using hp

theorem head?_of_prefix {α : Type} {l₁ l₂ : List α} (h : l₁ <+: l₂) {c : α}
    (hc : l₁.head? = some c) : l₂.head? = some c := by
  obtain ⟨t, rfl⟩ := h
  rw [List.head?_append, hc]
  rfl

theorem rstripBy_isPrefix_self (p : Char → Bool) (l : Str) : rstripBy p l <+: l := by
  have h := List.reverse_prefix.mpr (List.dropWhile_suffix (l := l.reverse) p)
  simpa [rstripBy] using h

theorem getLast?_rstripBy {p : Char → Bool} {l : Str} {c : Char}
    (h : (rstripBy p l).getLast? = some c) : p c = false := by
  unfold rstripBy at h
  rw [List.getLast?_reverse] at h
  exact head?_dropWhile h

/-- A string none of whose end characters satisfies `p`. -/
def StrippedBy (p : Char → Bool) (l : Str) : Prop :=
  (∀ c, l.head? = some c → p c = false) ∧
  (∀ c, l.getLast? = some c → p c = false)

theorem dropWhile_eq_self_of_head {α : Type} {p : α → Bool} {l : List α}
    (h : ∀ c, l.head? = some c → p c = false) : l.dropWhile p = l := by
  cases l with
  | nil => rfl
  | cons a t =>
      rw [List.dropWhile_cons, h a rfl]
      simp

theorem pyStripBy_eq_self {p : Char → Bool} {l : Str} (h : StrippedBy p l) :
    pyStripBy p l = l := by
  unfold pyStripBy
  rw [dropWhile_eq_self_of_head h.1]
  have h2 : ∀ c, l.reverse.head? = some c → p c = false := by
    intro c hc
    rw [List.head?_reverse] at hc
    exact h.2 c hc
  rw [dropWhile_eq_self_of_head h2, List.reverse_reverse]

theorem strippedBy_pyStripBy (p : Char → Bool) (s : Str) :
    StrippedBy p (pyStripBy p s) := by
  constructor
  · intro c hc
    rw [pyStripBy_eq_rstrip] at hc
    have h1 : (s.dropWhile p).head? = some c :=
      head?_of_prefix (rstripBy_isPrefix_self p (s.dropWhile p)) hc
    exact head?_dropWhile h1
  · intro c hc
    rw [pyStripBy_eq_rstrip] at hc
    exact getLast?_rstripBy hc

theorem pyStripBy_idem (p : Char → Bool) (s : Str) :
    pyStripBy p (pyStripBy p s) = pyStripBy p s :=
  pyStripBy_eq_self (strippedBy_pyStripBy p s)

theorem pyStripBy_map {p : Char → Bool} {f : Char → Char}
    (hp : ∀ c, p (f c) = p c) (s : Str) :
    pyStripBy p (s.map f) = (pyStripBy p s).map f := by
  unfold pyStripBy
  have hpf : (p ∘ f) = p := funext hp
  rw [List.dropWhile_map, hpf, ← List.map_reverse, List.dropWhile_map, hpf,
    ← List.map_reverse]

theorem pyStrip_pyUpper (s : Str) : pyStrip (pyUpper s) = pyUpper (pyStrip s) :=
  pyStripBy_map isPySpace_pyUpperChar s

theorem pyStrip_idem (s : Str) : pyStrip (pyStrip s) = pyStrip s :=
  pyStripBy_idem _ s

theorem pyUpper_idem (s : Str) : pyUpper (pyUpper s) = pyUpper s := by
  unfold pyUpper
  rw [List.map_map]
  congr 1
  funext c
  exact pyUpperChar_idem c

theorem removeSpaces_pyUpper (s : Str) :
    removeSpaces (pyUpper s) = pyUpper (removeSpaces s) := by
  unfold removeSpaces pyUpper
  rw [List.filter_map]
  congr 1
  exact List.filter_congr (fun c _ => bne_space_pyUpperChar c)

theorem head?_filter_of_head {q : Char → Bool} {l : Str} {a : Char}
    (hl : l.head? = some a) (ha : q a = true) : (l.filter q).head? = some a := by
  cases l with
  | nil => simp at hl
  | cons b t =>
      have hb : b = a := by simpa using hl
      subst hb
      rw [List.filter_cons, if_pos ha]
      rfl

theorem strippedBy_map_pyUpperChar {l : Str} (h : StrippedBy isPySpace l) :
    StrippedBy isPySpace (pyUpper l) := by
  constructor
  · intro c hc
    rw [pyUpper, List.head?_map] at hc
    cases hl : l.head? with
    | none => rw [hl] at hc; simp at hc
    | some a =>
        rw [hl] at hc
        have hac : pyUpperChar a = c := by simpa using hc
        subst hac
        rw [isPySpace_pyUpperChar]
        exact h.1 a hl
  · intro c hc
    rw [pyUpper, List.getLast?_map] at hc
    cases hl : l.getLast? with
    | none => rw [hl] at hc; simp at hc
    | some a =>
        rw [hl] at hc
        have hac : pyUpperChar a = c := by simpa using hc
        subst hac
        rw [isPySpace_pyUpperChar]
        exact h.2 a hl

theorem strippedBy_removeSpaces {l : Str} (h : StrippedBy isPySpace l) :
    StrippedBy isPySpace (removeSpaces l) := by
  constructor
  · intro c hc
    cases hl : l.head? with
    | none =>
        rw [List.head?_eq_none_iff] at hl
        subst hl
        simp [removeSpaces] at hc
    | some a =>
        have ha := h.1 a hl
        have hfa : (removeSpaces l).head? = some a :=
          head?_filter_of_head hl (ne_space_of_not_pySpace ha)
        rw [hfa] at hc
        have hac : a = c := by simpa using hc
        subst hac
        exact ha
  · intro c hc
    have hrev : (removeSpaces l.reverse).head? = some c := by
      rw [removeSpaces, List.filter_reverse, List.head?_reverse]
      exact hc
    cases hl : l.reverse.head? with
    | none =>
        rw [List.head?_eq_none_iff, List.reverse_eq_nil_iff] at hl
        subst hl
        simp [removeSpaces] at hrev
    | some a =>
        have ha : isPySpace a = false := by
          rw [List.head?_reverse] at hl
          exact h.2 a hl
        have hfa : (removeSpaces l.reverse).head? = some a :=
          head?_filter_of_head hl (ne_space_of_not_pySpace ha)
        rw [hfa] at hrev
        have hac : a = c := by simpa using hrev
        subst hac
        exact ha

theorem getLast?_drop_of_lt {α : Type} {l : List α} {k : ℕ} (hk : k < l.length) :
    (l.drop k).getLast? = l.getLast? := by
  rw [← List.head?_reverse (l.drop k), List.reverse_drop, List.head?_take,
    if_neg (by omega), List.head?_reverse]

/-- `normalize_postcode` is the identity on strings already in the
`UPPERCASE, one space before the last three characters` output form. -/
theorem normalize_fixed_on_norm_form {s : Str} (hU : pyUpper s = s)
    (hNoSp : ∀ c ∈ s, (c != ' ') = true)
    (hStr : StrippedBy isPySpace s)
    (h5 : ¬ s.length < 5) :
    normalize_postcode (s.take (s.length - 3) ++ ' ' :: s.drop (s.length - 3))
      = s.take (s.length - 3) ++ ' ' :: s.drop (s.length - 3) := by
  set A : Str := s.take (s.length - 3) with hAdef
  set B : Str := s.drop (s.length - 3) with hBdef
  set r : Str := A ++ ' ' :: B with hrdef
  have hk : s.length - 3 ≠ 0 := by omega
  have hBne : B ≠ [] := by
    have : B.length = 3 := by rw [hBdef, List.length_drop]; omega
    intro hnil
    rw [hnil] at this
    simp at this
  have hsne : s ≠ [] := by
    intro hnil
    rw [hnil] at h5
    simp at h5
  -- the ends of `r` are the ends of `s`
  have hhead : r.head? = s.head? := by
    rw [hrdef, List.head?_append, hAdef, List.head?_take, if_neg hk]
    cases hsh : s.head? with
    | none =>
        rw [List.head?_eq_none_iff] at hsh
        exact absurd hsh hsne
    | some a => rfl
  have hrrev : r.reverse = B.reverse ++ ' ' :: A.reverse := by
    rw [hrdef, List.reverse_append, List.reverse_cons, List.append_assoc]
    rfl
  have hBlast : B.getLast? = s.getLast? := by
    rw [hBdef]
    exact getLast?_drop_of_lt (by omega)
  have hlast : r.getLast? = s.getLast? := by
    rw [← List.head?_reverse r, hrrev, List.head?_append, List.head?_reverse,
      hBlast]
    cases hs : s.getLast? with
    | none =>
        rw [List.getLast?_eq_none_iff] at hs
        exact absurd hs hsne
    | some b => rfl
  have hStrR : StrippedBy isPySpace r :=
    ⟨fun c hc => hStr.1 c (hhead.symm.trans hc),
     fun c hc => hStr.2 c (hlast.symm.trans hc)⟩
  have hStripR : pyStrip r = r := pyStripBy_eq_self hStrR
  -- uppercasing fixes `r`
  have hsp : pyUpperChar ' ' = ' ' := by decide
  have hUA : pyUpper A = A := by
    rw [hAdef]
    show List.map pyUpperChar (s.take (s.length - 3)) = s.take (s.length - 3)
    rw [List.map_take]
    rw [show List.map pyUpperChar s = s from hU]
  have hUB : pyUpper B = B := by
    rw [hBdef]
    show List.map pyUpperChar (s.drop (s.length - 3)) = s.drop (s.length - 3)
    rw [List.map_drop]
    rw [show List.map pyUpperChar s = s from hU]
  have hUpperR : pyUpper r = r := by
    rw [hrdef]
    show List.map pyUpperChar (A ++ ' ' :: B) = A ++ ' ' :: B
    rw [List.map_append, List.map_cons, hsp]
    rw [show List.map pyUpperChar A = A from hUA,
      show List.map pyUpperChar B = B from hUB]
  -- removing spaces from `r` recovers `s`
  have hqA : removeSpaces A = A :=
    List.filter_eq_self.mpr (fun a ha => hNoSp a (List.take_subset _ _ (hAdef ▸ ha)))
  have hqB : removeSpaces B = B :=
    List.filter_eq_self.mpr (fun a ha => hNoSp a (List.drop_subset _ _ (hBdef ▸ ha)))
  have hRemR : removeSpaces r = s := by
    rw [hrdef]
    show List.filter (fun c => c != ' ') (A ++ ' ' :: B) = s
    rw [List.filter_append, List.filter_cons]
    rw [if_neg (by decide)]
    rw [show List.filter (fun c => c != ' ') A = A from hqA,
      show List.filter (fun c => c != ' ') B = B from hqB]
    rw [hAdef, hBdef, List.take_append_drop]
  -- evaluate `normalize_postcode r`
  simp only [normalize_postcode]
  rw [hStripR, hUpperR, hRemR, if_neg h5]

/-- `normalize_postcode` is idempotent: renormalizing a normalized postcode
changes nothing. -/
theorem normalize_postcode_idem (pc : Str) :
    normalize_postcode (normalize_postcode pc) = normalize_postcode pc := by
  by_cases h5 : (removeSpaces (pyUpper (pyStrip pc))).length < 5
  · have hr : normalize_postcode pc = pyUpper (pyStrip pc) := by
      simp only [normalize_postcode]
      rw [if_pos h5]
    have h1 : pyStrip (pyUpper (pyStrip pc)) = pyUpper (pyStrip pc) := by
      rw [pyStrip_pyUpper, pyStrip_idem]
    have h2 : pyUpper (pyUpper (pyStrip pc)) = pyUpper (pyStrip pc) := pyUpper_idem _
    rw [hr]
    simp only [normalize_postcode, h1, h2]
    rw [if_pos h5]
  · have hr : normalize_postcode pc =
        (removeSpaces (pyUpper (pyStrip pc))).take
            ((removeSpaces (pyUpper (pyStrip pc))).length - 3) ++
          ' ' :: (removeSpaces (pyUpper (pyStrip pc))).drop
            ((removeSpaces (pyUpper (pyStrip pc))).length - 3) := by
      simp only [normalize_postcode]
      rw [if_neg h5]
    have hU : pyUpper (removeSpaces (pyUpper (pyStrip pc)))
        = removeSpaces (pyUpper (pyStrip pc)) := by
      rw [removeSpaces_pyUpper, pyUpper_idem]
    have hNoSp : ∀ c ∈ removeSpaces (pyUpper (pyStrip pc)), (c != ' ') = true :=
      fun c hc => (List.mem_filter.mp hc).2
    have hStr : StrippedBy isPySpace (removeSpaces (pyUpper (pyStrip pc))) := by
      apply strippedBy_removeSpaces
      apply strippedBy_map_pyUpperChar
      exact strippedBy_pyStripBy _ _
    rw [hr]
    exact normalize_fixed_on_norm_form hU hNoSp hStr h5

/-! ## `scripts/postcode_to_borough.py`: the postcode → borough index -/

/-- String literals as `Str`. -/
def lit (s : String) : Str := s.toList

/-- The embedded allow-list `LONDON_LAD_CODE_TO_NAME` of the 33 Greater
London LAD codes (32 boroughs and the City of London) and their names. -/
def LONDON_LAD_CODE_TO_NAME : List (Str × Str) :=
  [(lit "E09000001", lit "City of London"),
   (lit "E09000002", lit "Barking and Dagenham"),
   (lit "E09000003", lit "Barnet"),
   (lit "E09000004", lit "Bexley"),
   (lit "E09000005", lit "Brent"),
   (lit "E09000006", lit "Bromley"),
   (lit "E09000007", lit "Camden"),
   (lit "E09000008", lit "Croydon"),
   (lit "E09000009", lit "Ealing"),
   (lit "E09000010", lit "Enfield"),
   (lit "E09000011", lit "Greenwich"),
   (lit "E09000012", lit "Hackney"),
   (lit "E09000013", lit "Hammersmith and Fulham"),
   (lit "E09000014", lit "Haringey"),
   (lit "E09000015", lit "Harrow"),
   (lit "E09000016", lit "Havering"),
   (lit "E09000017", lit "Hillingdon"),
   (lit "E09000018", lit "Hounslow"),
   (lit "E09000019", lit "Islington"),
   (lit "E09000020", lit "Kensington and Chelsea"),
   (lit "E09000021", lit "Kingston upon Thames"),
   (lit "E09000022", lit "Lambeth"),
   (lit "E09000023", lit "Lewisham"),
   (lit "E09000024", lit "Merton"),
   (lit "E09000025", lit "Newham"),
   (lit "E09000026", lit "Redbridge"),
   (lit "E09000027", lit "Richmond upon Thames"),
   (lit "E09000028", lit "Southwark"),
   (lit "E09000029", lit "Sutton"),
   (lit "E09000030", lit "Tower Hamlets"),
   (lit "E09000031", lit "Waltham Forest"),
   (lit "E09000032", lit "Wandsworth"),
   (lit "E09000033", lit "Westminster")]

/-- A Python `dict` with `Str` keys and values, as an insertion-ordered
association list holding at most one entry per key. -/
abbrev Dict := List (Str × Str)

/-- `d.get(k)`. -/
def dictGet (d : Dict) (k : Str) : Option Str :=
  (d.find? (fun p => p.1 == k)).map Prod.snd

/-- `d[k] = v`: overwrite the entry in place when the key is present,
append it otherwise. -/
def dictInsert (d : Dict) (k v : Str) : Dict :=
  match d with
  | [] => [(k, v)]
  | p :: rest => if p.1 == k then (k, v) :: rest else p :: dictInsert rest k v

/-- `LONDON_LAD_CODE_TO_NAME.get(lad)`; `lad in LONDON_LAD_CODE_TO_NAME`
is `(londonGet lad).isSome`. -/
def londonGet (lad : Str) : Option Str := dictGet LONDON_LAD_CODE_TO_NAME lad

/-- `REQUIRED_COLUMNS`. -/
def REQUIRED_COLUMNS : List String := ["pcds", "lad25cd"]

/-- One CSV data row as `csv.DictReader` presents it: a finite map from
field names to cell contents. -/
abbrev Row := List (String × Str)

/-- `row.get(k, "")`. -/
def rowGet (row : Row) (k : String) : Str :=
  ((row.find? (fun p => p.1 == k)).map Prod.snd).getD []

/-- A CSV file as parsed by `csv.DictReader`: the header (field names,
`reader.fieldnames`) and the data rows. -/
structure CSVFile where
  header : List String
  rows : List Row
deriving DecidableEq

/-- The filesystem: which paths exist and which parsed CSV file they hold;
`os.path.exists p` is `(fs p).isSome`. -/
abbrev FS := String → Option CSVFile

/-- The state of a `PostcodeToBoroughIndex` object: the configured ONSPD
path, the mapping `_pcds_to_lad` and the `_built` flag. -/
structure PostcodeToBoroughIndex where
  onspd_csv_path : String
  _pcds_to_lad : Dict
  _built : Bool
deriving DecidableEq

/-- `PostcodeToBoroughIndex.__init__`. -/
def PostcodeToBoroughIndex.init (onspd_csv_path : String) :
    PostcodeToBoroughIndex :=
  { onspd_csv_path := onspd_csv_path, _pcds_to_lad := [], _built := false }

/-- The exceptions `build` can raise. -/
inductive BuildErr where
  | fileNotFound (msg : String)
  | valueError (missing : List String)
deriving DecidableEq

/-- The body of `build`'s row loop: index the row's (stripped, unquoted)
postcode if its LAD code is on the Greater London allow-list and the
postcode is nonempty. -/
def buildRow (m : Dict) (row : Row) : Dict :=
  let lad := stripQuotes (pyStrip (rowGet row "lad25cd"))
  if (londonGet lad).isSome then
    let pcds := stripQuotes (pyStrip (rowGet row "pcds"))
    if pcds ≠ [] then dictInsert m pcds lad else m
  else m

/-- `PostcodeToBoroughIndex.build`: returns the updated object, plus the
raised exception if any.  On an exception the object is returned unchanged,
matching Python, where both raises happen before any mutation. -/
def PostcodeToBoroughIndex.build (fs : FS) (idx : PostcodeToBoroughIndex) :
    PostcodeToBoroughIndex × Option BuildErr :=
  if idx._built then (idx, none)
  else
    match fs idx.onspd_csv_path with
    | none =>
        (idx, some (BuildErr.fileNotFound
          ("ONSPD file not found: " ++ idx.onspd_csv_path)))
    | some file =>
        let missing := REQUIRED_COLUMNS.filter (fun c => ! file.header.contains c)
        if missing ≠ [] then (idx, some (BuildErr.valueError missing))
        else
          ({ idx with
              _pcds_to_lad := file.rows.foldl buildRow idx._pcds_to_lad,
              _built := true }, none)

/-- The lookup core of `postcode_to_borough`, reading the built mapping. -/
def lookupPair (d : Dict) (postcode : Str) : Option Str × Option Str :=
  let pcds := normalize_postcode postcode
  match dictGet d pcds with
  | none => (none, none)
  | some lad => if lad = [] then (none, none) else (londonGet lad, some lad)

/-- `PostcodeToBoroughIndex.postcode_to_borough`: build first when the index
is not built (an exception from `build` propagates), then look the
normalized postcode up.  Returns the updated object and the result. -/
def PostcodeToBoroughIndex.postcode_to_borough (fs : FS)
    (idx : PostcodeToBoroughIndex) (postcode : Str) :
    PostcodeToBoroughIndex × Except BuildErr (Option Str × Option Str) :=
  match (if idx._built then (idx, none) else PostcodeToBoroughIndex.build fs idx) with
  | (idx1, some e) => (idx1, Except.error e)
  | (idx1, none) => (idx1, Except.ok (lookupPair idx1._pcds_to_lad postcode))

/-- The module-level `postcode_to_borough` helper: a fresh index per call. -/
def postcode_to_borough (fs : FS) (postcode : Str) (onspd_csv_path : String) :
    PostcodeToBoroughIndex × Except BuildErr (Option Str × Option Str) :=
  PostcodeToBoroughIndex.postcode_to_borough fs
    (PostcodeToBoroughIndex.init onspd_csv_path) postcode

/-- The header row `main` writes. -/
def HEADER_ROW : List Str := [lit "postcode", lit "borough_name", lit "borough_code"]

/-- Python `x or ""` on an optional string. -/
def orEmpty (o : Option Str) : Str := o.getD []

/-- One output row of `main`'s loop:
`[normalize_postcode(pc), borough_name or "", borough_code or ""]`. -/
def outRow (d : Dict) (pc : Str) : List Str :=
  [normalize_postcode pc, orEmpty (lookupPair d pc).1, orEmpty (lookupPair d pc).2]

/-- `main`'s input assembly: the stripped non-blank lines of `--infile`
(when given) followed by the positional postcode arguments. -/
def mainInputs (infileLines : Option (List Str)) (argPostcodes : List Str) :
    List Str :=
  (match infileLines with
   | some lines => (lines.map pyStrip).filter (fun l => l ≠ [])
   | none => []) ++ argPostcodes

/-- The CSV rows `main` writes for the given non-empty input list: build the
index (exceptions propagate), then emit the header row and one row per
input postcode, in order. -/
def mainOutput (fs : FS) (onspd : String) (inputs : List Str) :
    Except BuildErr (List (List Str)) :=
  match PostcodeToBoroughIndex.build fs (PostcodeToBoroughIndex.init onspd) with
  | (_, some e) => Except.error e
  | (idx, none) => Except.ok (HEADER_ROW :: inputs.map (outRow idx._pcds_to_lad))

/-! Concrete sanity checks of the embedding. -/

def sampleFile : CSVFile :=
  { header := ["pcds", "lad25cd", "lat"],
    rows := [[("pcds", lit "SW1A 1AA"), ("lad25cd", lit "E09000033"), ("lat", lit "51.5")],
             [("pcds", lit "M1 1AE"), ("lad25cd", lit "E08000003"), ("lat", lit "53.5")]] }

def sampleFS : FS := fun p => if p = "onspd.csv" then some sampleFile else none

example :
    (PostcodeToBoroughIndex.build sampleFS
      (PostcodeToBoroughIndex.init "onspd.csv")).1._pcds_to_lad
      = [(lit "SW1A 1AA", lit "E09000033")] := by decide

example :
    (PostcodeToBoroughIndex.postcode_to_borough sampleFS
      (PostcodeToBoroughIndex.init "onspd.csv") (lit "sw1a1aa")).2
      = Except.ok (some (lit "Westminster"), some (lit "E09000033")) := by decide

example :
    (PostcodeToBoroughIndex.postcode_to_borough sampleFS
      (PostcodeToBoroughIndex.init "onspd.csv") (lit "M1 1AE")).2
      = Except.ok (none, none) := by decide

/-- The index built from the sample filesystem, for witnesses. -/
def sampleIdx : PostcodeToBoroughIndex :=
  (PostcodeToBoroughIndex.build sampleFS (PostcodeToBoroughIndex.init "onspd.csv")).1

/-! ### Dictionary lemmas -/

theorem dictGet_mem {d : Dict} {k v : Str} (h : dictGet d k = some v) :
    (k, v) ∈ d := by
  unfold dictGet at h
  cases hf : d.find? (fun p => p.1 == k) with
  | none => rw [hf] at h; simp at h
  | some pr =>
      rw [hf] at h
      have h1 := List.find?_some hf
      have h2 := List.mem_of_find?_eq_some hf
      have h3 : pr.1 = k := by simpa using h1
      have h4 : pr.2 = v := by simpa using h
      rw [← h3, ← h4]
      simpa using h2

theorem mem_dictInsert {d : Dict} {k v : Str} {p : Str × Str}
    (h : p ∈ dictInsert d k v) : p ∈ d ∨ p = (k, v) := by
  induction d with
  | nil =>
      simp only [dictInsert] at h
      right
      simpa using h
  | cons q rest ih =>
      unfold dictInsert at h
      by_cases hq : (q.1 == k) = true
      · rw [if_pos hq] at h
        rcases List.mem_cons.mp h with h1 | h1
        · right; exact h1
        · left; exact List.mem_cons_of_mem _ h1
      · rw [if_neg hq] at h
        rcases List.mem_cons.mp h with h1 | h1
        · left; exact h1 ▸ List.mem_cons_self _ _
        · rcases ih h1 with h2 | h2
          · left; exact List.mem_cons_of_mem _ h2
          · right; exact h2

/-! ### What a successful `build` from a fresh index produces -/

theorem build_init_success {fs : FS} {path : String}
    {idx : PostcodeToBoroughIndex}
    (hbuild : PostcodeToBoroughIndex.build fs (PostcodeToBoroughIndex.init path)
      = (idx, none)) :
    ∃ file, fs path = some file ∧
      idx = { onspd_csv_path := path,
              _pcds_to_lad := file.rows.foldl buildRow [],
              _built := true } := by
  unfold PostcodeToBoroughIndex.build PostcodeToBoroughIndex.init at hbuild
  simp only [Bool.false_eq_true, if_false] at hbuild
  split at hbuild
  · simp at hbuild
  · rename_i file hf
    split at hbuild
    · simp at hbuild
    · refine ⟨file, hf, ?_⟩
      have h1 := congrArg Prod.fst hbuild
      simp at h1
      rw [← h1]

/-- The values `buildRow` deposits are always allow-list codes. -/
theorem buildRow_good {m : Dict} {row : Row}
    (hm : ∀ p ∈ m, (londonGet p.2).isSome = true) :
    ∀ p ∈ buildRow m row, (londonGet p.2).isSome = true := by
  intro p hp
  unfold buildRow at hp
  by_cases hlad :
      (londonGet (stripQuotes (pyStrip (rowGet row "lad25cd")))).isSome = true
  · rw [if_pos hlad] at hp
    by_cases hpc : stripQuotes (pyStrip (rowGet row "pcds")) ≠ []
    · rw [if_pos hpc] at hp
      rcases mem_dictInsert hp with h1 | h1
      · exact hm p h1
      · rw [h1]
        exact hlad
    · rw [if_neg hpc] at hp
      exact hm p hp
  · rw [if_neg hlad] at hp
    exact hm p hp

theorem foldl_buildRow_good (rows : List Row) (m : Dict)
    (hm : ∀ p ∈ m, (londonGet p.2).isSome = true) :
    ∀ p ∈ rows.foldl buildRow m, (londonGet p.2).isSome = true := by
  induction rows generalizing m with
  | nil => exact hm
  | cons r t ih => exact ih _ (buildRow_good hm)

/-- The keys `buildRow` deposits come verbatim from the processed row. -/
theorem buildRow_keys {m : Dict} {row : Row} {P : Str × Str → Prop}
    (hm : ∀ p ∈ m, P p)
    (hrow : stripQuotes (pyStrip (rowGet row "pcds")) ≠ [] →
      ∀ lad, P (stripQuotes (pyStrip (rowGet row "pcds")), lad)) :
    ∀ p ∈ buildRow m row, P p := by
  intro p hp
  unfold buildRow at hp
  by_cases hlad :
      (londonGet (stripQuotes (pyStrip (rowGet row "lad25cd")))).isSome = true
  · rw [if_pos hlad] at hp
    by_cases hpc : stripQuotes (pyStrip (rowGet row "pcds")) ≠ []
    · rw [if_pos hpc] at hp
      rcases mem_dictInsert hp with h1 | h1
      · exact hm p h1
      · rw [h1]
        exact hrow hpc _
    · rw [if_neg hpc] at hp
      exact hm p hp
  · rw [if_neg hlad] at hp
    exact hm p hp

theorem foldl_buildRow_keys (allRows : List Row) :
    ∀ rows : List Row, (∀ r ∈ rows, r ∈ allRows) → ∀ m : Dict,
      (∀ q ∈ m, q.1 ≠ [] ∧
        ∃ row ∈ allRows, q.1 = stripQuotes (pyStrip (rowGet row "pcds"))) →
      ∀ q ∈ rows.foldl buildRow m, q.1 ≠ [] ∧
        ∃ row ∈ allRows, q.1 = stripQuotes (pyStrip (rowGet row "pcds")) := by
  intro rows
  induction rows with
  | nil => intro _ m hm; exact hm
  | cons r t ih =>
      intro hsub m hm
      refine ih (fun x hx => hsub x (List.mem_cons_of_mem _ hx)) _ ?_
      refine buildRow_keys hm ?_
      intro hne lad
      exact ⟨hne, r, hsub r (List.mem_cons_self _ _), rfl⟩

/-! ### Claims about the postcode index -/

/-- **C1.** After `build()` completes successfully on any CSV input, every
value stored in the index is one of the 33 allow-list London LAD codes, and
every lookup through `postcode_to_borough` returns either `(None, None)` or
a pair `(name, code)` with `code` on the allow-list and `name` exactly the
borough name the allow-list assigns to `code`. -/
theorem build_allowlist_lookup_sound (fs : FS) (path : String)
    (idx : PostcodeToBoroughIndex)
    (hbuild : PostcodeToBoroughIndex.build fs (PostcodeToBoroughIndex.init path)
      = (idx, none)) :
    (∀ k v, dictGet idx._pcds_to_lad k = some v →
      v ∈ LONDON_LAD_CODE_TO_NAME.map Prod.fst) ∧
    (∀ p, (PostcodeToBoroughIndex.postcode_to_borough fs idx p).2
        = Except.ok (none, none) ∨
      ∃ name code,
        (PostcodeToBoroughIndex.postcode_to_borough fs idx p).2
          = Except.ok (some name, some code) ∧
        londonGet code = some name ∧
        code ∈ LONDON_LAD_CODE_TO_NAME.map Prod.fst) := by
  obtain ⟨file, hf, hidx⟩ := build_init_success hbuild
  have hgood : ∀ q ∈ idx._pcds_to_lad, (londonGet q.2).isSome = true := by
    rw [hidx]
    exact foldl_buildRow_good _ _ (by simp)
  have hbuilt : idx._built = true := by rw [hidx]
  have hmem : ∀ k v, dictGet idx._pcds_to_lad k = some v →
      (londonGet v).isSome = true := fun k v h => hgood _ (dictGet_mem h)
  have hcode : ∀ v name, londonGet v = some name →
      v ∈ LONDON_LAD_CODE_TO_NAME.map Prod.fst := by
    intro v name hn
    have h3 : (v, name) ∈ LONDON_LAD_CODE_TO_NAME := dictGet_mem hn
    exact List.mem_map.mpr ⟨(v, name), h3, rfl⟩
  constructor
  · intro k v h
    have h1 := hmem k v h
    rw [Option.isSome_iff_exists] at h1
    obtain ⟨name, hn⟩ := h1
    exact hcode v name hn
  · intro p
    unfold PostcodeToBoroughIndex.postcode_to_borough
    rw [hbuilt]
    simp only [if_true]
    cases hget : dictGet idx._pcds_to_lad (normalize_postcode p) with
    | none => left; simp [lookupPair, hget]
    | some lad =>
        have hl := hmem _ _ hget
        rw [Option.isSome_iff_exists] at hl
        obtain ⟨name, hn⟩ := hl
        have hlne : lad ≠ [] := by
          intro hnil
          rw [hnil] at hn
          have hz : londonGet ([] : Str) = none := by decide
          rw [hz] at hn
          exact Option.noConfusion hn
        right
        refine ⟨name, lad, ?_, hn, hcode lad name hn⟩
        simp [lookupPair, hget, hlne, hn]

/-- **C2.** Point lookups are answered after normalization: looking up `p`
gives the same outcome (state and result) as looking up
`normalize_postcode p`, and two inputs with equal normalizations give equal
lookup outcomes. -/
theorem postcode_to_borough_normalizes (fs : FS)
    (idx : PostcodeToBoroughIndex) (p p1 p2 : Str)
    (hp : normalize_postcode p1 = normalize_postcode p2) :
    PostcodeToBoroughIndex.postcode_to_borough fs idx p
      = PostcodeToBoroughIndex.postcode_to_borough fs idx (normalize_postcode p) ∧
    PostcodeToBoroughIndex.postcode_to_borough fs idx p1
      = PostcodeToBoroughIndex.postcode_to_borough fs idx p2 := by
  have key : ∀ q1 q2 : Str, normalize_postcode q1 = normalize_postcode q2 →
      PostcodeToBoroughIndex.postcode_to_borough fs idx q1
        = PostcodeToBoroughIndex.postcode_to_borough fs idx q2 := by
    intro q1 q2 hq
    unfold PostcodeToBoroughIndex.postcode_to_borough
    cases hif : (if idx._built then (idx, none)
        else PostcodeToBoroughIndex.build fs idx) with
    | mk idx1 e =>
        cases e with
        | none => simp [lookupPair, hq]
        | some err => rfl
  exact ⟨key p (normalize_postcode p) (normalize_postcode_idem p).symm,
    key p1 p2 hp⟩

/-- A CSV file whose `pcds` cell is not in canonical form. -/
def lowercaseFile : CSVFile :=
  { header := ["pcds", "lad25cd"],
    rows := [[("pcds", lit "sw1a 1aa"), ("lad25cd", lit "E09000001")]] }

def lowercaseFS : FS := fun p => if p = "low.csv" then some lowercaseFile else none

/-- **C3, counterexample.** `build()` succeeds on a CSV whose `pcds` cell is
lowercase and stores the key verbatim; that key is not a fixed point of
`normalize_postcode`, so not every stored key is normalized. -/
theorem build_key_not_normalized_cex :
    (PostcodeToBoroughIndex.build lowercaseFS
        (PostcodeToBoroughIndex.init "low.csv")).2 = none ∧
    dictGet ((PostcodeToBoroughIndex.build lowercaseFS
        (PostcodeToBoroughIndex.init "low.csv")).1)._pcds_to_lad
        (lit "sw1a 1aa") = some (lit "E09000001") ∧
    normalize_postcode (lit "sw1a 1aa") ≠ lit "sw1a 1aa" := by decide

/-- **C3, amended.** Every key stored in the index after a successful
`build()` is some row's `pcds` cell with surrounding whitespace and double
quotes stripped, stored verbatim (build applies no further normalization),
and is nonempty. -/
theorem build_keys_verbatim (fs : FS) (path : String) (file : CSVFile)
    (idx : PostcodeToBoroughIndex)
    (hf : fs path = some file)
    (hbuild : PostcodeToBoroughIndex.build fs (PostcodeToBoroughIndex.init path)
      = (idx, none)) :
    ∀ k v, dictGet idx._pcds_to_lad k = some v →
      k ≠ [] ∧ ∃ row ∈ file.rows, k = stripQuotes (pyStrip (rowGet row "pcds")) := by
  obtain ⟨file', hf', hidx⟩ := build_init_success hbuild
  rw [hf] at hf'
  injection hf' with hfe
  subst hfe
  intro k v h
  have hmem := dictGet_mem h
  rw [hidx] at hmem
  exact foldl_buildRow_keys file.rows file.rows (fun r hr => hr) []
    (by simp) (k, v) hmem

/-- **C7.** Once built, the index is frozen: `build()` is a no-op returning
the identical object, and a lookup leaves the whole object state (mapping
and built flag) unchanged. -/
theorem built_index_frozen (fs : FS) (idx : PostcodeToBoroughIndex) (p : Str)
    (hbuilt : idx._built = true) :
    PostcodeToBoroughIndex.build fs idx = (idx, none) ∧
    (PostcodeToBoroughIndex.postcode_to_borough fs idx p).1 = idx := by
  have hb : PostcodeToBoroughIndex.build fs idx = (idx, none) := by
    unfold PostcodeToBoroughIndex.build
    rw [hbuilt]
    simp
  refine ⟨hb, ?_⟩
  unfold PostcodeToBoroughIndex.postcode_to_borough
  rw [hbuilt]
  simp

/-- **C9.** On a fresh (unbuilt, empty) index, `build` raises
`FileNotFoundError` iff the configured path does not exist, raises
`ValueError` iff the file exists but its header lacks `pcds` or `lad25cd`,
and in either error case returns with the mapping still empty and the
built flag still false, so a later call can retry. -/
theorem build_error_iff (fs : FS) (idx : PostcodeToBoroughIndex)
    (hb : idx._built = false) (hm : idx._pcds_to_lad = []) :
    ((∃ msg, (PostcodeToBoroughIndex.build fs idx).2
        = some (BuildErr.fileNotFound msg)) ↔ fs idx.onspd_csv_path = none) ∧
    ((∃ ms, (PostcodeToBoroughIndex.build fs idx).2
        = some (BuildErr.valueError ms)) ↔
      (∃ file, fs idx.onspd_csv_path = some file ∧
        ("pcds" ∉ file.header ∨ "lad25cd" ∉ file.header))) ∧
    (∀ e, (PostcodeToBoroughIndex.build fs idx).2 = some e →
      (PostcodeToBoroughIndex.build fs idx).1 = idx ∧
      (PostcodeToBoroughIndex.build fs idx).1._pcds_to_lad = [] ∧
      (PostcodeToBoroughIndex.build fs idx).1._built = false) := by
  unfold PostcodeToBoroughIndex.build
  rw [hb]
  simp only [Bool.false_eq_true, if_false]
  cases hf : fs idx.onspd_csv_path with
  | none =>
      refine ⟨⟨fun _ => rfl, fun _ => ⟨_, rfl⟩⟩, ?_, ?_⟩
      · constructor
        · rintro ⟨ms, hms⟩
          exact absurd hms (by simp)
        · rintro ⟨file, hfile, _⟩
          exact Option.noConfusion hfile
      · intro e _
        exact ⟨rfl, hm, hb⟩
  | some file =>
      dsimp only
      by_cases hmiss :
          (REQUIRED_COLUMNS.filter (fun c => ! file.header.contains c)) ≠ []
      · rw [if_pos hmiss]
        have hdisj : "pcds" ∉ file.header ∨ "lad25cd" ∉ file.header := by
          by_contra hcon
          push_neg at hcon
          apply hmiss
          have h1 : file.header.contains "pcds" = true := List.elem_iff.mpr hcon.1
          have h2 : file.header.contains "lad25cd" = true := List.elem_iff.mpr hcon.2
          simp [REQUIRED_COLUMNS, h1, h2, hcon.1, hcon.2]
        refine ⟨?_, ?_, ?_⟩
        · constructor
          · rintro ⟨msg, hmsg⟩
            exact absurd hmsg (by simp)
          · intro hnone
            exact Option.noConfusion hnone
        · exact ⟨fun _ => ⟨file, rfl, hdisj⟩, fun _ => ⟨_, rfl⟩⟩
        · intro e _
          exact ⟨rfl, hm, hb⟩
      · rw [if_neg hmiss]
        push_neg at hmiss
        have hcont : ∀ c ∈ REQUIRED_COLUMNS, file.header.contains c = true := by
          intro c hc
          by_contra hnc
          have : c ∈ REQUIRED_COLUMNS.filter (fun x => ! file.header.contains x) := by
            rw [List.mem_filter]
            have hfc : file.header.contains c = false := Bool.eq_false_iff.mpr hnc
            exact ⟨hc, by rw [hfc]; rfl⟩
          rw [hmiss] at this
          simp at this
        refine ⟨?_, ?_, ?_⟩
        · constructor
          · rintro ⟨msg, hmsg⟩
            exact Option.noConfusion hmsg
          · intro hnone
            exact Option.noConfusion hnone
        · constructor
          · rintro ⟨ms, hms⟩
            exact Option.noConfusion hms
          · rintro ⟨file', hfile', hdisj⟩
            injection hfile' with hfe
            subst hfe
            rcases hdisj with hd | hd
            · exact absurd
                (List.elem_iff.mp (hcont "pcds" (by simp [REQUIRED_COLUMNS]))) hd
            · exact absurd
                (List.elem_iff.mp (hcont "lad25cd" (by simp [REQUIRED_COLUMNS]))) hd
        · intro e he
          exact Option.noConfusion he

/-- **C4.** For every non-empty input list (infile lines stripped with
blanks dropped, then command-line postcodes) and successful build, `main`
writes exactly one header row `[postcode, borough_name, borough_code]`
followed by exactly one row per input postcode in input order; each row
holds the normalized postcode, borough name and borough code, the latter
two as empty strings when the postcode is not in the London index. -/
theorem mainOutput_shape (fs : FS) (onspd : String) (inputs : List Str)
    (out : List (List Str)) (lines args : List Str)
    (hne : inputs ≠ [])
    (hout : mainOutput fs onspd inputs = Except.ok out) :
    out.length = inputs.length + 1 ∧
    out.head? = some HEADER_ROW ∧
    (∃ d, out = HEADER_ROW :: inputs.map (outRow d) ∧
      (∀ pc, outRow d pc = [normalize_postcode pc,
        orEmpty (lookupPair d pc).1, orEmpty (lookupPair d pc).2]) ∧
      (∀ pc, lookupPair d pc = (none, none) →
        outRow d pc = [normalize_postcode pc, [], []])) ∧
    mainInputs (some lines) args
      = (lines.map pyStrip).filter (fun l => l ≠ []) ++ args := by
  unfold mainOutput at hout
  cases hbr : PostcodeToBoroughIndex.build fs (PostcodeToBoroughIndex.init onspd) with
  | mk idx e =>
      rw [hbr] at hout
      cases e with
      | some err => exact absurd hout (by simp)
      | none =>
          have hout' : out = HEADER_ROW :: inputs.map (outRow idx._pcds_to_lad) := by
            have := hout
            simp at this
            exact this.symm
          refine ⟨?_, ?_, ⟨idx._pcds_to_lad, hout', fun pc => rfl, ?_⟩, rfl⟩
          · rw [hout']
            simp
          · rw [hout']
            rfl
          · intro pc h
            simp [outRow, h, orEmpty]

/-! ### Witnesses for the postcode-index claims -/

theorem build_allowlist_lookup_sound_witness :
    (PostcodeToBoroughIndex.postcode_to_borough sampleFS sampleIdx (lit "sw1a1aa")).2
        = Except.ok (none, none) ∨
    ∃ name code,
      (PostcodeToBoroughIndex.postcode_to_borough sampleFS sampleIdx (lit "sw1a1aa")).2
        = Except.ok (some name, some code) ∧
      londonGet code = some name ∧
      code ∈ LONDON_LAD_CODE_TO_NAME.map Prod.fst :=
  (build_allowlist_lookup_sound sampleFS "onspd.csv" sampleIdx (by decide)).2
    (lit "sw1a1aa")

theorem postcode_to_borough_normalizes_witness :
    PostcodeToBoroughIndex.postcode_to_borough sampleFS sampleIdx (lit " sw1a 1aa")
      = PostcodeToBoroughIndex.postcode_to_borough sampleFS sampleIdx
          (normalize_postcode (lit " sw1a 1aa")) ∧
    PostcodeToBoroughIndex.postcode_to_borough sampleFS sampleIdx (lit "sw1a1aa")
      = PostcodeToBoroughIndex.postcode_to_borough sampleFS sampleIdx
          (lit "SW1A 1AA") :=
  postcode_to_borough_normalizes sampleFS sampleIdx (lit " sw1a 1aa")
    (lit "sw1a1aa") (lit "SW1A 1AA") (by decide)

theorem build_keys_verbatim_witness :
    lit "sw1a 1aa" ≠ [] ∧ ∃ row ∈ lowercaseFile.rows,
      lit "sw1a 1aa" = stripQuotes (pyStrip (rowGet row "pcds")) :=
  build_keys_verbatim lowercaseFS "low.csv" lowercaseFile
    (PostcodeToBoroughIndex.build lowercaseFS
      (PostcodeToBoroughIndex.init "low.csv")).1
    (by decide) (by decide) (lit "sw1a 1aa") (lit "E09000001") (by decide)

theorem mainOutput_shape_witness :
    ([HEADER_ROW,
      [lit "SW1A 1AA", lit "Westminster", lit "E09000033"],
      [lit "ZZ99 9ZZ", [], []]] : List (List Str)).length
        = ([lit "sw1a1aa", lit "zz99 9zz"] : List Str).length + 1 ∧
    ([HEADER_ROW,
      [lit "SW1A 1AA", lit "Westminster", lit "E09000033"],
      [lit "ZZ99 9ZZ", [], []]] : List (List Str)).head? = some HEADER_ROW ∧
    (∃ d, ([HEADER_ROW,
      [lit "SW1A 1AA", lit "Westminster", lit "E09000033"],
      [lit "ZZ99 9ZZ", [], []]] : List (List Str))
        = HEADER_ROW :: ([lit "sw1a1aa", lit "zz99 9zz"] : List Str).map (outRow d) ∧
      (∀ pc, outRow d pc = [normalize_postcode pc,
        orEmpty (lookupPair d pc).1, orEmpty (lookupPair d pc).2]) ∧
      (∀ pc, lookupPair d pc = (none, none) →
        outRow d pc = [normalize_postcode pc, [], []])) ∧
    mainInputs (some [lit " ab ", lit "  "]) [lit "cd"]
      = (([lit " ab ", lit "  "] : List Str).map pyStrip).filter (fun l => l ≠ [])
          ++ [lit "cd"] :=
  mainOutput_shape sampleFS "onspd.csv" [lit "sw1a1aa", lit "zz99 9zz"]
    [HEADER_ROW,
      [lit "SW1A 1AA", lit "Westminster", lit "E09000033"],
      [lit "ZZ99 9ZZ", [], []]]
    [lit " ab ", lit "  "] [lit "cd"] (by decide) (by decide)

theorem built_index_frozen_witness :
    PostcodeToBoroughIndex.build sampleFS sampleIdx = (sampleIdx, none) ∧
    (PostcodeToBoroughIndex.postcode_to_borough sampleFS sampleIdx
      (lit "sw1a1aa")).1 = sampleIdx :=
  built_index_frozen sampleFS sampleIdx (lit "sw1a1aa") (by decide)

theorem build_error_iff_witness :
    ((∃ msg, (PostcodeToBoroughIndex.build sampleFS
        (PostcodeToBoroughIndex.init "nope.csv")).2
        = some (BuildErr.fileNotFound msg)) ↔
      sampleFS (PostcodeToBoroughIndex.init "nope.csv").onspd_csv_path = none) ∧
    ((∃ ms, (PostcodeToBoroughIndex.build sampleFS
        (PostcodeToBoroughIndex.init "nope.csv")).2
        = some (BuildErr.valueError ms)) ↔
      (∃ file, sampleFS (PostcodeToBoroughIndex.init "nope.csv").onspd_csv_path
          = some file ∧
        ("pcds" ∉ file.header ∨ "lad25cd" ∉ file.header))) ∧
    (∀ e, (PostcodeToBoroughIndex.build sampleFS
        (PostcodeToBoroughIndex.init "nope.csv")).2 = some e →
      (PostcodeToBoroughIndex.build sampleFS
        (PostcodeToBoroughIndex.init "nope.csv")).1
        = PostcodeToBoroughIndex.init "nope.csv" ∧
      (PostcodeToBoroughIndex.build sampleFS
        (PostcodeToBoroughIndex.init "nope.csv")).1._pcds_to_lad = [] ∧
      (PostcodeToBoroughIndex.build sampleFS
        (PostcodeToBoroughIndex.init "nope.csv")).1._built = false) :=
  build_error_iff sampleFS (PostcodeToBoroughIndex.init "nope.csv")
    (by decide) (by decide)

/-! ## `model.py` (the training script) and `app/main.py` (the service)

The scripts' own code is embedded fully; the external ML library calls
(CatBoost, scikit-learn, numpy) are abstracted as an `MLBackend` parameter:
`M` is the type of fitted models and `V` the numeric type of labels and
predictions. -/

/-- A pandas/pydantic cell value: a string (categorical) or a number. -/
inductive PVal where
  | s (v : Str)
  | q (v : ℚ)
deriving DecidableEq

/-- A dataframe row: a partial map from column name to cell
(`none` = missing/NaN). -/
abbrev DFRow := String → Option PVal

/-- `TARGET` in `model.py`. -/
def TARGET : String := "price_paid"

/-- `CATS` in `model.py`. -/
def CATS : List String := ["property_type", "tenure", "postcode", "borough"]

/-- `NUMS` in `model.py`. -/
def NUMS : List String :=
  ["floor_area", "bedrooms", "bathrooms", "distance_to_station_km",
   "sale_year", "sale_quarter", "imd_decile", "lat", "lon"]

/-- `FEATS = CATS + NUMS`. -/
def FEATS : List String := CATS ++ NUMS

/-- The row predicate of `df.dropna(subset=[TARGET, *FEATS])`. -/
def hasAllValues (r : DFRow) : Bool :=
  (TARGET :: FEATS).all (fun c => (r c).isSome)

/-- `df["year_group"] = (df["sale_year"]//2)*2` on one row (Python floor
division, so 2-year buckets; a non-numeric `sale_year` has no bucket). -/
def yearGroupOf (r : DFRow) : Option ℚ :=
  match r "sale_year" with
  | some (PVal.q v) => some ((⌊v / 2⌋ : ℤ) * 2 : ℚ)
  | _ => none

/-- A CatBoost `Pool`: the feature matrix, the labels and the categorical
feature names. -/
structure Pool (V : Type) where
  X : List (List (Option PVal))
  label : List V
  cat_features : List String
deriving DecidableEq

/-- `Pool(rows[FEATS], label=labels, cat_features=CATS)`. -/
def mkPool {V : Type} (rows : List DFRow) (labels : List V) : Pool V :=
  { X := rows.map (fun r => FEATS.map r), label := labels,
    cat_features := CATS }

/-- The `CatBoostRegressor` constructor arguments the script sets. -/
structure CatBoostParams where
  depth : ℕ
  learning_rate : ℚ
  loss_function : String
  n_estimators : ℕ
  subsample : ℚ
  colsample_bylevel : ℚ
  random_seed : ℕ
  od_type : Option String
  od_wait : Option ℕ
deriving DecidableEq

/-- The CV-fold model parameters of `model.py`. -/
def cvParams : CatBoostParams :=
  { depth := 8, learning_rate := 1/20, loss_function := "MAE",
    n_estimators := 4000, subsample := 4/5, colsample_bylevel := 4/5,
    random_seed := 42, od_type := some "Iter", od_wait := some 200 }

/-- The final-model parameters.  The script's
`final_model.get_best_iteration()+100 if 'final_model' in locals() else 3000`
evaluates to `3000`, because the name `final_model` is still unbound while
the constructor arguments are evaluated. -/
def finalParams : CatBoostParams :=
  { depth := 8, learning_rate := 1/20, loss_function := "MAE",
    n_estimators := 3000, subsample := 4/5, colsample_bylevel := 4/5,
    random_seed := 42, od_type := none, od_wait := none }

/-- The external ML library surface the two scripts call. -/
structure MLBackend (M V : Type) where
  gkfSplit : ℕ → List (Option ℚ) → List (List ℕ × List ℕ)
  fit : CatBoostParams → Pool V → Option (Pool V) → M
  predictPool : M → Pool V → List V
  log1p : PVal → V
  expm1 : V → V
  meanAbsErr : List (Option PVal) → List V → V
  predictRows : M → List (List PVal) → Except String (List V)
  round2 : V → V

/-- `df.iloc[idxs]`. -/
def iloc {α : Type} (l : List α) (idxs : List ℕ) : List α :=
  idxs.filterMap (fun i => l[i]?)

/-- The serialized artifact dictionary. -/
structure Artifact (M : Type) where
  model : M
  features : List String
  cat_features : List String
  num_features : List String
  target : String
deriving DecidableEq

/-- One fold of the CV loop: fit on the train indices with the validation
pool as eval set, predict the validation pool, and collect `expm1` of the
predictions together with the fold's true prices. -/
def cvFold {M V : Type} (B : MLBackend M V) (df : List DFRow)
    (logPrice : List V) (tv : List ℕ × List ℕ) :
    List V × List (Option PVal) :=
  let train_pool := mkPool (iloc df tv.1) (iloc logPrice tv.1)
  let valid_pool := mkPool (iloc df tv.2) (iloc logPrice tv.2)
  let model := B.fit cvParams train_pool (some valid_pool)
  let p := B.predictPool model valid_pool
  (p.map B.expm1, (iloc df tv.2).map (fun r => r TARGET))

/-- The stages of the training script, in source order. -/
inductive PipelineStep where
  | read (path : String)
  | filterRows
  | crossValidate
  | fitFinal
  | serialize (path : String)
deriving DecidableEq

/-- `DATA` in `model.py`. -/
def DATA : String := "data/london_ppd_prepared.parquet"

/-- The serialization target `MODEL_DIR / "house_price_catboost.joblib"`. -/
def MODEL_PATH : String := "model/house_price_catboost.joblib"

/-- Everything the training script computes and writes. -/
structure TrainResult (M V : Type) where
  steps : List PipelineStep
  usedRows : List DFRow
  cvNSplits : ℕ
  cvGroups : List (Option ℚ)
  oofMAE : V
  finalPool : Pool V
  artifacts : Artifact M
  dumpPath : String

/-- The module body of `model.py`: read the prepared dataset (the rows are
the parameter `raw`), drop rows with a missing target or feature, run
5-fold grouped cross-validation to get an out-of-fold MAE, fit the final
model on all remaining rows and serialize the artifact dictionary. -/
def train {M V : Type} (B : MLBackend M V) (raw : List DFRow) :
    TrainResult M V :=
  let df := raw.filter hasAllValues
  let logPrice := df.map (fun r => B.log1p ((r TARGET).getD (PVal.q 0)))
  let groups := df.map yearGroupOf
  let folds := B.gkfSplit 5 groups
  let results := folds.map (cvFold B df logPrice)
  let oof := (results.map Prod.fst).flatten
  let preds := (results.map Prod.snd).flatten
  let mae := B.meanAbsErr preds oof
  let final_pool := mkPool df logPrice
  let final_model := B.fit finalParams final_pool none
  { steps := [PipelineStep.read DATA, PipelineStep.filterRows,
      PipelineStep.crossValidate, PipelineStep.fitFinal,
      PipelineStep.serialize MODEL_PATH],
    usedRows := df,
    cvNSplits := 5,
    cvGroups := groups,
    oofMAE := mae,
    finalPool := final_pool,
    artifacts := { model := final_model, features := FEATS,
                   cat_features := CATS, num_features := NUMS,
                   target := TARGET },
    dumpPath := MODEL_PATH }

/-- The request body model `HouseFeatures` (pydantic). -/
structure HouseFeatures where
  property_type : Str
  tenure : Str
  postcode : Str
  borough : Str
  floor_area : ℚ
  bedrooms : ℤ
  bathrooms : ℤ
  distance_to_station_km : ℚ
  sale_year : ℤ
  sale_quarter : ℤ
  lat : ℚ
  lon : ℚ
deriving DecidableEq

/-- The pydantic `Field` range constraints on `HouseFeatures`. -/
def HouseFeatures.valid (x : HouseFeatures) : Bool :=
  decide (5 < x.floor_area) && decide (x.floor_area < 1000) &&
  decide (0 ≤ x.bedrooms) && decide (x.bedrooms ≤ 15) &&
  decide (0 ≤ x.bathrooms) && decide (x.bathrooms ≤ 10) &&
  decide (0 ≤ x.distance_to_station_km) && decide (x.distance_to_station_km < 20) &&
  decide (1995 ≤ x.sale_year) && decide (x.sale_year ≤ 2100) &&
  decide (1 ≤ x.sale_quarter) && decide (x.sale_quarter ≤ 4)

/-- `getattr(x, k)` on the model's fields (`none` = `AttributeError`). -/
def getField (x : HouseFeatures) (k : String) : Option PVal :=
  if k = "property_type" then some (PVal.s x.property_type)
  else if k = "tenure" then some (PVal.s x.tenure)
  else if k = "postcode" then some (PVal.s x.postcode)
  else if k = "borough" then some (PVal.s x.borough)
  else if k = "floor_area" then some (PVal.q x.floor_area)
  else if k = "bedrooms" then some (PVal.q (x.bedrooms : ℚ))
  else if k = "bathrooms" then some (PVal.q (x.bathrooms : ℚ))
  else if k = "distance_to_station_km" then
    some (PVal.q x.distance_to_station_km)
  else if k = "sale_year" then some (PVal.q (x.sale_year : ℚ))
  else if k = "sale_quarter" then some (PVal.q (x.sale_quarter : ℚ))
  else if k = "lat" then some (PVal.q x.lat)
  else if k = "lon" then some (PVal.q x.lon)
  else none

/-- Python dict insertion for the comprehension (overwrite in place,
append when new). -/
def dcInsert (d : List (String × PVal)) (k : String) (v : PVal) :
    List (String × PVal) :=
  match d with
  | [] => [(k, v)]
  | p :: rest => if p.1 = k then (k, v) :: rest else p :: dcInsert rest k v

/-- `row = {k: getattr(x, k) for k in feats}` (an unknown attribute raises,
modelled as `none`). -/
def fieldsDict (x : HouseFeatures) (feats : List String) :
    Option (List (String × PVal)) :=
  feats.foldlM (fun d k => (getField x k).map (fun v => dcInsert d k v)) []

def AREA_NOTE : String :=
  "Estimates reflect borough + proximity to public transport more than fine-grained street effects."

def CURRENCY : String := "GBP"

def MODEL_NOTE : String := "CatBoostRegressor (MAE on CV shown during training)"

/-- The `/predict` response body. -/
structure PredictResponse (V : Type) where
  estimated_price_gbp : V
  area_note : String
  currency : String
  model_name : String
deriving DecidableEq

/-- The `/predict` handler: the whole body runs inside
`try: ... except Exception as e: raise HTTPException(400, str(e))`, so the
result is either a response or an HTTP error `(status, detail)`.  `ART` is
`none` when the startup `load_model` never ran or failed. -/
def predict {M V : Type} (B : MLBackend M V) (ART : Option (Artifact M))
    (x : HouseFeatures) : Except (ℕ × String) (PredictResponse V) :=
  match ART with
  | none => Except.error (400, "name 'ART' is not defined")
  | some art =>
      match fieldsDict x art.features with
      | none => Except.error (400, "object has no attribute")
      | some row =>
          match B.predictRows art.model [row.map Prod.snd] with
          | Except.error e => Except.error (400, e)
          | Except.ok [] => Except.error (400, "index 0 is out of bounds")
          | Except.ok (p :: _) =>
              Except.ok { estimated_price_gbp := B.round2 (B.expm1 p),
                          area_note := AREA_NOTE, currency := CURRENCY,
                          model_name := MODEL_NOTE }

/-! Concrete instances for witnesses. -/

def testBackend : MLBackend Unit ℚ :=
  { gkfSplit := fun _ _ => [],
    fit := fun _ _ _ => (),
    predictPool := fun _ _ => [],
    log1p := fun _ => 0,
    expm1 := fun v => v + 1,
    meanAbsErr := fun _ _ => 0,
    predictRows := fun _ X => Except.ok (X.map (fun _ => (12 : ℚ))),
    round2 := fun v => v }

def testArtifact : Artifact Unit :=
  { model := (), features := FEATS, cat_features := CATS,
    num_features := NUMS, target := TARGET }

def testPayload : HouseFeatures :=
  { property_type := lit "F", tenure := lit "L", postcode := lit "SW1A 1AA",
    borough := lit "Westminster", floor_area := 50, bedrooms := 2,
    bathrooms := 1, distance_to_station_km := 1, sale_year := 2024,
    sale_quarter := 2, lat := 51, lon := 0 }

example : testPayload.valid = true := by decide

/- The artifact from `model.py` lists `imd_decile` among its features, but
`HouseFeatures` has no such field, so `getattr` raises and the handler
answers 400 — for every payload. -/
example :
    predict testBackend (some testArtifact) testPayload
      = Except.error (400, "object has no attribute") := by decide

example : predict testBackend (none : Option (Artifact Unit)) testPayload
    = Except.error (400, "name 'ART' is not defined") := by decide

/-! ### Claims about the training script and the endpoint -/

/-- **C5.** The training script is the linear pipeline
read → filter → cross-validate → fit → serialize: exactly the rows with no
missing target or feature survive the filter and they are what every model
step consumes; grouped 5-fold CV runs with the 2-year `sale_year` buckets
of the retained rows as groups, and the out-of-fold `expm1` predictions
give the MAE; one final model is fit on a pool holding all retained rows;
the serialized artifact holds the model, features, cat_features,
num_features and target, at `model/house_price_catboost.joblib`. -/
theorem train_pipeline {M V : Type} (B : MLBackend M V) (raw : List DFRow) :
    (train B raw).steps
      = [PipelineStep.read DATA, PipelineStep.filterRows,
         PipelineStep.crossValidate, PipelineStep.fitFinal,
         PipelineStep.serialize MODEL_PATH] ∧
    (∀ r, r ∈ (train B raw).usedRows ↔
      (r ∈ raw ∧ ∀ c ∈ TARGET :: FEATS, (r c).isSome = true)) ∧
    (train B raw).cvNSplits = 5 ∧
    (train B raw).cvGroups = (train B raw).usedRows.map yearGroupOf ∧
    (train B raw).oofMAE
      = B.meanAbsErr
          ((((B.gkfSplit 5 ((train B raw).usedRows.map yearGroupOf)).map
            (cvFold B (train B raw).usedRows
              ((train B raw).usedRows.map
                (fun r => B.log1p ((r TARGET).getD (PVal.q 0)))))).map
                  Prod.snd).flatten)
          ((((B.gkfSplit 5 ((train B raw).usedRows.map yearGroupOf)).map
            (cvFold B (train B raw).usedRows
              ((train B raw).usedRows.map
                (fun r => B.log1p ((r TARGET).getD (PVal.q 0)))))).map
                  Prod.fst).flatten) ∧
    (train B raw).finalPool
      = mkPool (train B raw).usedRows
          ((train B raw).usedRows.map
            (fun r => B.log1p ((r TARGET).getD (PVal.q 0)))) ∧
    (train B raw).finalPool.X
      = (train B raw).usedRows.map (fun r => FEATS.map r) ∧
    (train B raw).artifacts
      = { model := B.fit finalParams (train B raw).finalPool none,
          features := FEATS, cat_features := CATS, num_features := NUMS,
          target := TARGET } ∧
    (train B raw).dumpPath = MODEL_PATH := by
  refine ⟨rfl, ?_, rfl, rfl, rfl, rfl, rfl, rfl, rfl⟩
  intro r
  show r ∈ raw.filter hasAllValues ↔ _
  rw [List.mem_filter]
  constructor
  · rintro ⟨h1, h2⟩
    exact ⟨h1, by simpa [hasAllValues, List.all_eq_true] using h2⟩
  · rintro ⟨h1, h2⟩
    exact ⟨h1, by simpa [hasAllValues, List.all_eq_true] using h2⟩

/-- The artifact dictionary that `model.py` serializes, as `load_model`
loads it: its feature list is the training `FEATS`. -/
def trainedArtifact {M : Type} (m : M) : Artifact M :=
  { model := m, features := FEATS, cat_features := CATS,
    num_features := NUMS, target := TARGET }

/-- **C6.** Divergence between the claim and the code: the artifact
`model.py` trains and serializes lists `imd_decile` among its features, but
`HouseFeatures` has no `imd_decile` field, so with the trained artifact
loaded the handler's `getattr` raises and every payload that passes
validation is answered with an HTTP 400 error — never with the claimed
`expm1`-and-round price estimate. -/
theorem predict_trained_artifact_always_400 {M V : Type} (B : MLBackend M V)
    (m : M) (x : HouseFeatures) (hx : x.valid = true) :
    ("imd_decile" ∈ (trainedArtifact m).features ∧
      getField x "imd_decile" = none) ∧
    predict B (some (trainedArtifact m)) x
      = Except.error (400, "object has no attribute") := by
  refine ⟨⟨by simp [trainedArtifact, FEATS, NUMS], rfl⟩, ?_⟩
  unfold predict trainedArtifact
  dsimp only
  have hfd : fieldsDict x FEATS = none := rfl
  rw [hfd]

theorem predict_trained_artifact_always_400_witness :
    ("imd_decile" ∈ (trainedArtifact ()).features ∧
      getField testPayload "imd_decile" = none) ∧
    predict testBackend (some (trainedArtifact ())) testPayload
      = Except.error (400, "object has no attribute") :=
  predict_trained_artifact_always_400 testBackend () testPayload (by decide)

/-- The twelve feature names that are actual `HouseFeatures` fields. -/
def SERVE_FEATS : List String :=
  ["property_type", "tenure", "postcode", "borough", "floor_area",
   "bedrooms", "bathrooms", "distance_to_station_km", "sale_year",
   "sale_quarter", "lat", "lon"]

/-- An artifact whose feature list names only actual fields. -/
def serveArtifact {M : Type} (m : M) : Artifact M :=
  { model := m, features := SERVE_FEATS, cat_features := CATS,
    num_features := NUMS, target := TARGET }

/-- With an artifact whose feature list names only actual `HouseFeatures`
fields, the handler serves exactly one prediction per request: the single
row in feature-list order, `expm1`-ed and rounded to two decimals. -/
theorem predict_single_row_when_fields_match {M V : Type} (B : MLBackend M V)
    (m : M) (x : HouseFeatures) (p : V) (ps : List V)
    (hpred : B.predictRows m [SERVE_FEATS.filterMap (getField x)]
      = Except.ok (p :: ps)) :
    predict B (some (serveArtifact m)) x
      = Except.ok { estimated_price_gbp := B.round2 (B.expm1 p),
                    area_note := AREA_NOTE, currency := CURRENCY,
                    model_name := MODEL_NOTE } := by
  unfold predict serveArtifact
  dsimp only
  have hfd : fieldsDict x SERVE_FEATS
      = some [("property_type", PVal.s x.property_type),
              ("tenure", PVal.s x.tenure),
              ("postcode", PVal.s x.postcode),
              ("borough", PVal.s x.borough),
              ("floor_area", PVal.q x.floor_area),
              ("bedrooms", PVal.q (x.bedrooms : ℚ)),
              ("bathrooms", PVal.q (x.bathrooms : ℚ)),
              ("distance_to_station_km", PVal.q x.distance_to_station_km),
              ("sale_year", PVal.q (x.sale_year : ℚ)),
              ("sale_quarter", PVal.q (x.sale_quarter : ℚ)),
              ("lat", PVal.q x.lat),
              ("lon", PVal.q x.lon)] := rfl
  rw [hfd]
  have hrow : ([("property_type", PVal.s x.property_type),
              ("tenure", PVal.s x.tenure),
              ("postcode", PVal.s x.postcode),
              ("borough", PVal.s x.borough),
              ("floor_area", PVal.q x.floor_area),
              ("bedrooms", PVal.q (x.bedrooms : ℚ)),
              ("bathrooms", PVal.q (x.bathrooms : ℚ)),
              ("distance_to_station_km", PVal.q x.distance_to_station_km),
              ("sale_year", PVal.q (x.sale_year : ℚ)),
              ("sale_quarter", PVal.q (x.sale_quarter : ℚ)),
              ("lat", PVal.q x.lat),
              ("lon", PVal.q x.lon)] : List (String × PVal)).map Prod.snd
      = SERVE_FEATS.filterMap (getField x) := rfl
  dsimp only
  rw [hrow, hpred]

/-- **C8.** Two-run determinism: with a fixed built index equal postcode
strings give equal lookup outcomes, and with a fixed loaded artifact equal
payloads give equal predict results. -/
theorem components_deterministic {M V : Type} (B : MLBackend M V)
    (ART : Option (Artifact M)) (fs : FS) (idx : PostcodeToBoroughIndex)
    (p1 p2 : Str) (x1 x2 : HouseFeatures)
    (hbuilt : idx._built = true) (hp : p1 = p2) (hx : x1 = x2) :
    PostcodeToBoroughIndex.postcode_to_borough fs idx p1
      = PostcodeToBoroughIndex.postcode_to_borough fs idx p2 ∧
    predict B ART x1 = predict B ART x2 :=
  ⟨by rw [hp], by rw [hx]⟩

theorem components_deterministic_witness :
    PostcodeToBoroughIndex.postcode_to_borough sampleFS sampleIdx (lit "e1 6an")
      = PostcodeToBoroughIndex.postcode_to_borough sampleFS sampleIdx
          (lit "e1 6an") ∧
    predict testBackend (some testArtifact) testPayload
      = predict testBackend (some testArtifact) testPayload :=
  components_deterministic testBackend (some testArtifact) sampleFS sampleIdx
    (lit "e1 6an") (lit "e1 6an") testPayload testPayload (by decide) rfl rfl

/-- **C10.** For every payload that passes validation the handler never
propagates a raw exception: whatever the artifact state and however the
model call fails, the result is either a response or an `HTTPException`
with status code 400. -/
theorem predict_errors_are_http_400 {M V : Type} (B : MLBackend M V)
    (ART : Option (Artifact M)) (x : HouseFeatures) (hx : x.valid = true) :
    (∃ r, predict B ART x = Except.ok r) ∨
    (∃ detail, predict B ART x = Except.error (400, detail)) := by
  unfold predict
  cases ART with
  | none => exact Or.inr ⟨_, rfl⟩
  | some art =>
      dsimp only
      cases hfd : fieldsDict x art.features with
      | none => exact Or.inr ⟨_, rfl⟩
      | some row =>
          dsimp only
          cases hpr : B.predictRows art.model [row.map Prod.snd] with
          | error e => exact Or.inr ⟨e, rfl⟩
          | ok l =>
              cases l with
              | nil => exact Or.inr ⟨_, rfl⟩
              | cons p ps => exact Or.inl ⟨_, rfl⟩

theorem predict_errors_are_http_400_witness :
    (∃ r, predict testBackend (some testArtifact) testPayload
      = Except.ok r) ∨
    (∃ detail, predict testBackend (some testArtifact) testPayload
      = Except.error (400, detail)) :=
  predict_errors_are_http_400 testBackend (some testArtifact) testPayload
    (by decide)

end HousePrice
